import Mathlib

set_option maxHeartbeats 1000000

namespace CollegeDirectory

/-- JS strings modelled as lists of characters (the data handled by this system is ASCII). -/
abbrev JStr := List Char

/-- Builds a modelled JS string from a Lean string literal. -/
def ofStr (s : String) : JStr := s.data

/-- ASCII decimal digit test, as used by JS parseInt with radix 10. -/
def isDigitChar (c : Char) : Bool := decide (48 ≤ c.toNat ∧ c.toNat ≤ 57)

/-- Whitespace skipped by JS parseInt and trim (ASCII subset). -/
def isJsWhitespace (c : Char) : Bool :=
  decide (c.toNat = 32 ∨ c.toNat = 9 ∨ c.toNat = 10 ∨ c.toNat = 13 ∨ c.toNat = 11 ∨ c.toNat = 12)

/-- ASCII lowercase letter test. -/
def isLowerAscii (c : Char) : Bool := decide (97 ≤ c.toNat ∧ c.toNat ≤ 122)

/-- True when the string contains no ASCII lowercase letter. -/
def noLowerAscii (s : JStr) : Bool := s.all (fun c => ! isLowerAscii c)

/-- The decimal digit character for a digit value below ten. -/
def digitChar (d : Nat) : Char :=
  match d with
  | 0 => '0'
  | 1 => '1'
  | 2 => '2'
  | 3 => '3'
  | 4 => '4'
  | 5 => '5'
  | 6 => '6'
  | 7 => '7'
  | 8 => '8'
  | _ => '9'

/-- Fueled decimal-digit expansion of a natural number (most significant digit first). -/
def natDigitsAux : Nat → Nat → List Char
  | 0, _ => []
  | fuel + 1, n =>
    if n < 10 then [digitChar n]
    else natDigitsAux fuel (n / 10) ++ [digitChar (n % 10)]

/-- The decimal digits of a natural number, as produced by JS String(n). -/
def natDigits (n : Nat) : JStr := natDigitsAux (n + 1) n

/-- JS String(i) for an integer value. -/
def jsIntToStr : Int → JStr
  | .ofNat n => natDigits n
  | .negSucc n => '-' :: natDigits (n + 1)

/-- JS String.prototype.padStart with a single pad character. -/
def padStart (w : Nat) (c : Char) (s : JStr) : JStr := List.replicate (w - s.length) c ++ s

/-- Value of a decimal digit string (leading digits weigh more). -/
def digitsToNat (s : JStr) : Nat := s.foldl (fun acc c => 10 * acc + (c.toNat - 48)) 0

/-- The longest leading run of decimal digits, interpreted in base ten; none when empty. -/
def parseUnsigned (s : JStr) : Option Nat :=
  let ds := s.takeWhile isDigitChar
  if ds = [] then none else some (digitsToNat ds)

/-- JS parseInt(s, 10): skip leading whitespace, optional sign, then leading digits; NaN is none. -/
def parseInt10 (s : JStr) : Option Int :=
  let t := s.dropWhile isJsWhitespace
  match t with
  | [] => none
  | c :: rest =>
    if c = '+' then (parseUnsigned rest).map (fun n => (n : Int))
    else if c = '-' then (parseUnsigned rest).map (fun n => -(n : Int))
    else (parseUnsigned t).map (fun n => (n : Int))

/-- JS String.prototype.trim (ASCII whitespace). -/
def jsTrim (s : JStr) : JStr :=
  ((s.dropWhile isJsWhitespace).reverse.dropWhile isJsWhitespace).reverse

/-- JS s.slice(-3): the last three characters, or the whole string when shorter. -/
def jsSliceLast3 (s : JStr) : JStr := s.drop (s.length - 3)

/-- Byte-wise lexicographic comparison, the BINARY collation SQLite uses for ORDER BY on text. -/
def lexLt : JStr → JStr → Bool
  | _, [] => false
  | [], _ :: _ => true
  | a :: as, b :: bs =>
    if a.toNat < b.toNat then true
    else if b.toNat < a.toNat then false
    else lexLt as bs

/-- ASCII case folding used by the default SQLite LIKE: uppercase letters fold to lowercase. -/
def foldCaseNat (c : Char) : Nat :=
  if 65 ≤ c.toNat ∧ c.toNat ≤ 90 then c.toNat + 32 else c.toNat

/-- SQLite LIKE with pattern pat followed by a percent wildcard: ASCII-case-insensitive
prefix match of pat against s. -/
def likeMatch : JStr → JStr → Bool
  | [], _ => true
  | _ :: _, [] => false
  | p :: ps, c :: cs => (foldCaseNat p == foldCaseNat c) && likeMatch ps cs

/-- JS Array.prototype.join with a separator. -/
def joinSep (sep : JStr) : List JStr → JStr
  | [] => []
  | [x] => x
  | x :: y :: xs => x ++ sep ++ joinSep sep (y :: xs)

/-- A row of the students table: id INTEGER PRIMARY KEY AUTOINCREMENT, reg_no TEXT UNIQUE
NOT NULL, and five NOT NULL text columns. -/
structure Student where
  id : Nat
  reg_no : JStr
  name : JStr
  email : JStr
  department : JStr
  address : JStr
  division : JStr
deriving DecidableEq

/-- The students table plus the AUTOINCREMENT counter; rows are kept in insertion order. -/
structure DB where
  rows : List Student
  nextId : Nat
deriving DecidableEq

/-- A fresh database: no rows, AUTOINCREMENT starts at 1. -/
def DB.empty : DB := ⟨[], 1⟩

/-- The COL plus current-year prefix built by generateRegistrationNumber. -/
def pfxOf (year : Nat) : JStr := 'C' :: 'O' :: 'L' :: natDigits year

/-- Fold step keeping the row with the larger reg_no (the later row only on a strict increase),
so the fold returns the row ORDER BY reg_no DESC LIMIT 1 would. -/
def regMaxStep (acc : Option Student) (r : Student) : Option Student :=
  match acc with
  | none => some r
  | some m => if lexLt m.reg_no r.reg_no then some r else some m

/-- SELECT reg_no FROM students WHERE reg_no LIKE pat ORDER BY reg_no DESC LIMIT 1,
for the pattern pfx followed by a percent wildcard. -/
def latestLike (pfx : JStr) (db : DB) : Option Student :=
  (db.rows.filter (fun r => likeMatch pfx r.reg_no)).foldl regMaxStep none

/-- The nextSequence computation of generateRegistrationNumber: one when no row was
found or its reg_no is falsy (empty) or its last three characters do not parse, else
the parsed value plus one. -/
def nextSequenceOf : Option Student → Int
  | none => 1
  | some row =>
    if row.reg_no = [] then 1
    else
      match parseInt10 (jsSliceLast3 row.reg_no) with
      | none => 1
      | some v => v + 1

/-- generateRegistrationNumber from src/server.js: query the latest reg_no for the year
prefix, parse its last three characters in base ten (guarded by JS truthiness of the
reg_no), add one (default one), and zero-pad the sequence to width three. -/
def generateRegistrationNumber (year : Nat) (db : DB) : JStr :=
  let pfx := pfxOf year
  pfx ++ padStart 3 '0' (jsIntToStr (nextSequenceOf (latestLike pfx db)))

/-- The JSON body of a registration request; none models an absent field. -/
structure RegBody where
  name : Option JStr
  email : Option JStr
  department : Option JStr
  address : Option JStr
  division : Option JStr
deriving DecidableEq

/-- JS truthiness test used by the validation: absent or empty-string fields are falsy. -/
def falsyStr : Option JStr → Bool
  | none => true
  | some s => s.isEmpty

/-- The missingFields list built by the register handler, in source order. -/
def missingFields (b : RegBody) : List JStr :=
  (if falsyStr b.name then [ofStr "name"] else []) ++
  (if falsyStr b.email then [ofStr "email"] else []) ++
  (if falsyStr b.department then [ofStr "department"] else []) ++
  (if falsyStr b.address then [ofStr "address"] else []) ++
  (if falsyStr b.division then [ofStr "division"] else [])

/-- The student object echoed in a 201 response (raw, untrimmed field values; no id). -/
structure RespStudent where
  reg_no : JStr
  name : JStr
  email : JStr
  department : JStr
  address : JStr
  division : JStr
deriving DecidableEq

/-- Outcome of a POST to the register endpoint. -/
inductive RegOutcome where
  | badRequest (missing : List JStr)
  | created (resp : RespStudent)
  | serverError
deriving DecidableEq

/-- HTTP status code of each outcome. -/
def statusCode : RegOutcome → Nat
  | .badRequest _ => 400
  | .created _ => 201
  | .serverError => 500

/-- The error string in the JSON response body, when there is one. -/
def errorMessage : RegOutcome → Option JStr
  | .badRequest ms => some (ofStr "Missing fields: " ++ joinSep (ofStr ", ") ms)
  | .created _ => none
  | .serverError => some (ofStr "Internal Server Error")

/-- INSERT INTO students: fails (UNIQUE constraint on reg_no) when the reg_no is already
present, otherwise appends the row and bumps the AUTOINCREMENT counter. -/
def insertStudent (db : DB) (reg nm em dept addr dvn : JStr) : Option DB :=
  if db.rows.any (fun r => r.reg_no == reg) then none
  else some ⟨db.rows ++ [⟨db.nextId, reg, nm, em, dept, addr, dvn⟩], db.nextId + 1⟩

/-- Injected store failures: some d makes the corresponding driver call reject with
details d, which the handler catches. -/
structure Faults where
  getFault : Option JStr
  insFault : Option JStr
deriving DecidableEq

/-- No injected store failures. -/
def noFaults : Faults := ⟨none, none⟩

/-- The POST /api/register handler: validate the five fields by truthiness, allocate a
registration number, insert the trimmed record, echo the raw record; any store rejection
or insert failure is caught and reported as a generic server error. -/
def registerF (year : Nat) (db : DB) (b : RegBody) (f : Faults) : RegOutcome × DB :=
  let missing := missingFields b
  if missing = [] then
    if f.getFault.isSome then (.serverError, db)
    else
      let regNo := generateRegistrationNumber year db
      if f.insFault.isSome then (.serverError, db)
      else
        match insertStudent db regNo (jsTrim (b.name.getD [])) (jsTrim (b.email.getD []))
            (jsTrim (b.department.getD [])) (jsTrim (b.address.getD []))
            (jsTrim (b.division.getD [])) with
        | none => (.serverError, db)
        | some db2 =>
          (.created ⟨regNo, b.name.getD [], b.email.getD [], b.department.getD [],
            b.address.getD [], b.division.getD []⟩, db2)
  else (.badRequest missing, db)

/-- The register handler with the store operating normally. -/
def register (year : Nat) (db : DB) (b : RegBody) : RegOutcome × DB :=
  registerF year db b noFaults

/-- Insertion of a row into a list sorted by descending id (insertion-sort step). -/
def insertDesc (r : Student) : List Student → List Student
  | [] => [r]
  | s :: ss => if s.id ≤ r.id then r :: s :: ss else s :: insertDesc r ss

/-- Sorting by descending id, the ORDER BY id DESC of the listing queries. -/
def sortByIdDesc : List Student → List Student
  | [] => []
  | r :: rs => insertDesc r (sortByIdDesc rs)

/-- The GET /api/students handler: an absent or falsy (empty) department query parameter
returns all rows, otherwise only the rows whose department matches exactly; both ordered
by descending id. -/
def listStudents (db : DB) (department : Option JStr) : List Student :=
  match department with
  | some d =>
    if d.isEmpty then sortByIdDesc db.rows
    else sortByIdDesc (db.rows.filter (fun r => r.department == d))
  | none => sortByIdDesc db.rows

/-- Modelled from the claim wording of C1: the next sequence is one when no record was
found; otherwise the last three characters of its registration number parsed as a
base-10 integer plus one, or one when parsing fails. -/
def specNextSeq : Option Student → Int
  | none => 1
  | some row =>
    match parseInt10 (jsSliceLast3 row.reg_no) with
    | none => 1
    | some v => v + 1

/-- Modelled from the claim wording of C1: query the store for the single record whose
registration number starts with the prefix (plain case-sensitive prefix comparison),
ordered by registration number descending with limit one; compute the next sequence
from it; return the prefix plus the sequence zero-padded to width three. -/
def allocSpec (year : Nat) (db : DB) : JStr :=
  let pfx := pfxOf year
  pfx ++ padStart 3 '0' (jsIntToStr (specNextSeq
    ((db.rows.filter (fun r => pfx.isPrefixOf r.reg_no)).foldl regMaxStep none)))

/-- The three-character (or longer, for values of four or more digits) sequence code the
allocator appends: the decimal digits zero-padded to width three. -/
def code3 (n : Nat) : JStr := padStart 3 '0' (natDigits n)

/-- The reg_no column contents after k successful registrations of one year started from a
store holding no row of that year. -/
def chainRegs (pfx : JStr) : Nat → List JStr
  | 0 => []
  | k + 1 => chainRegs pfx k ++ [pfx ++ code3 (k + 1)]

/-- The store after k serial registration requests with bodies bs, starting empty. -/
def runSerial (year : Nat) (bs : Nat → RegBody) : Nat → DB
  | 0 => DB.empty
  | k + 1 => (registerF year (runSerial year bs k) (bs k) noFaults).2

/-- A fixed valid registration body. -/
def okBody : RegBody :=
  ⟨some (ofStr "Ada"), some (ofStr "ada@b.edu"), some (ofStr "CS"), some (ofStr "12 Main"),
    some (ofStr "A")⟩

/-- The constant stream of valid registration bodies. -/
def cBs : Nat → RegBody := fun _ => okBody

/-- A registration body whose name is whitespace only (truthy, but empty after trimming). -/
def wsBody : RegBody :=
  ⟨some (ofStr " "), some (ofStr "a"), some (ofStr "b"), some (ofStr "c"), some (ofStr "d")⟩

/-- The string-side analogue of regMaxStep, acting on reg_no values only. -/
def maxRegStep (acc : Option JStr) (s : JStr) : Option JStr :=
  match acc with
  | none => some s
  | some m => if lexLt m s then some s else some m

/-- A concrete store used to instantiate theorems with hypotheses. -/
def adb : DB :=
  ⟨[⟨1, ofStr "COL2025007", ofStr "A", ofStr "E", ofStr "CS", ofStr "X", ofStr "D"⟩], 2⟩

/-- A concrete store holding both a three-digit and a four-digit sequence suffix for 2025. -/
def odb : DB :=
  ⟨[⟨1, ofStr "COL2025999", ofStr "A", ofStr "E", ofStr "CS", ofStr "X", ofStr "D"⟩,
    ⟨2, ofStr "COL20251000", ofStr "B", ofStr "E", ofStr "CS", ofStr "X", ofStr "D"⟩], 3⟩

/-- A concrete three-row store with two departments. -/
def wdb : DB :=
  ⟨[⟨1, ofStr "COL2025001", ofStr "A", ofStr "E", ofStr "CS", ofStr "X", ofStr "D"⟩,
    ⟨2, ofStr "COL2025002", ofStr "B", ofStr "E", ofStr "EE", ofStr "X", ofStr "D"⟩,
    ⟨3, ofStr "COL2025003", ofStr "C", ofStr "E", ofStr "CS", ofStr "X", ofStr "D"⟩], 4⟩

/-- A registration body with two absent fields and one empty field. -/
def mbBody : RegBody := ⟨none, some (ofStr ""), some (ofStr "x"), none, some (ofStr "y")⟩

lemma digitChar_toNat {d : Nat} (h : d < 10) : (digitChar d).toNat = 48 + d := by
  interval_cases d <;> rfl

lemma isDigitChar_digitChar {d : Nat} (h : d < 10) : isDigitChar (digitChar d) = true := by
  interval_cases d <;> rfl

lemma isJsWhitespace_digitChar {d : Nat} (h : d < 10) : isJsWhitespace (digitChar d) = false := by
  interval_cases d <;> rfl

lemma digitChar_ne_plus {d : Nat} (h : d < 10) : digitChar d ≠ '+' := by
  interval_cases d <;> decide

lemma digitChar_ne_minus {d : Nat} (h : d < 10) : digitChar d ≠ '-' := by
  interval_cases d <;> decide

lemma natDigitsAux_small {fuel n : Nat} (h : n < 10) :
    natDigitsAux (fuel + 1) n = [digitChar n] := by
  simp [natDigitsAux, h]

lemma natDigitsAux_step {fuel n : Nat} (h : 10 ≤ n) :
    natDigitsAux (fuel + 1) n = natDigitsAux fuel (n / 10) ++ [digitChar (n % 10)] := by
  have : ¬ n < 10 := by omega
  simp [natDigitsAux, this]

lemma natDigitsAux_fuel {f : Nat} : ∀ {g n : Nat}, n < f → n < g →
    natDigitsAux f n = natDigitsAux g n := by
  induction f with
  | zero => intro g n hf _; omega
  | succ f ih =>
    intro g n hf hg
    cases g with
    | zero => omega
    | succ g =>
      by_cases h : n < 10
      · rw [natDigitsAux_small h, natDigitsAux_small h]
      · have h10 : 10 ≤ n := by omega
        rw [natDigitsAux_step h10, natDigitsAux_step h10,
          @ih g (n / 10) (by omega) (by omega)]

lemma natDigits_small {n : Nat} (h : n < 10) : natDigits n = [digitChar n] :=
  natDigitsAux_small h

lemma natDigits_step {n : Nat} (h : 10 ≤ n) :
    natDigits n = natDigits (n / 10) ++ [digitChar (n % 10)] := by
  unfold natDigits
  rw [natDigitsAux_step h]
  congr 1
  exact natDigitsAux_fuel (by omega) (by omega)

lemma natDigits_ne_nil (n : Nat) : natDigits n ≠ [] := by
  by_cases h : n < 10
  · rw [natDigits_small h]; simp
  · rw [natDigits_step (by omega)]; simp

lemma natDigits_all_digits (n : Nat) : ∀ c ∈ natDigits n, isDigitChar c = true := by
  induction n using Nat.strong_induction_on with
  | _ n ih =>
    by_cases h : n < 10
    · rw [natDigits_small h]
      intro c hc
      rw [List.mem_singleton] at hc
      subst hc
      exact isDigitChar_digitChar h
    · rw [natDigits_step (by omega)]
      intro c hc
      rcases List.mem_append.mp hc with hc | hc
      · exact ih (n / 10) (by omega) c hc
      · rw [List.mem_singleton] at hc
        subst hc
        exact isDigitChar_digitChar (by omega)

lemma natDigits_length_le3 {n : Nat} (h : n < 1000) : (natDigits n).length ≤ 3 := by
  by_cases h1 : n < 10
  · rw [natDigits_small h1]; simp
  · by_cases h2 : n / 10 < 10
    · rw [natDigits_step (by omega), natDigits_small h2]; simp
    · rw [natDigits_step (by omega), natDigits_step (by omega),
        natDigits_small (show n / 10 / 10 < 10 by omega)]
      simp

lemma natDigits_length_ge4 {n : Nat} (h : 1000 ≤ n) : 4 ≤ (natDigits n).length := by
  rw [natDigits_step (show 10 ≤ n by omega),
    natDigits_step (show 10 ≤ n / 10 by omega),
    natDigits_step (show 10 ≤ n / 10 / 10 by omega)]
  have hne := natDigits_ne_nil (n / 10 / 10 / 10)
  have hlp : 0 < (natDigits (n / 10 / 10 / 10)).length := List.length_pos.mpr hne
  simp only [List.length_append, List.length_singleton]
  omega

lemma digitsToNat_append (s : JStr) (c : Char) :
    digitsToNat (s ++ [c]) = 10 * digitsToNat s + (c.toNat - 48) := by
  unfold digitsToNat
  rw [List.foldl_append]
  rfl

lemma digitsToNat_natDigits (n : Nat) : digitsToNat (natDigits n) = n := by
  induction n using Nat.strong_induction_on with
  | _ n ih =>
    by_cases h : n < 10
    · rw [natDigits_small h]
      show 10 * 0 + ((digitChar n).toNat - 48) = n
      rw [digitChar_toNat h]
      omega
    · rw [natDigits_step (by omega), digitsToNat_append, ih (n / 10) (by omega),
        digitChar_toNat (show n % 10 < 10 by omega)]
      omega

lemma digitsToNat_triple {a b c : Nat} (ha : a < 10) (hb : b < 10) (hc : c < 10) :
    digitsToNat [digitChar a, digitChar b, digitChar c] = 100 * a + 10 * b + c := by
  show 10 * (10 * (10 * 0 + ((digitChar a).toNat - 48)) + ((digitChar b).toNat - 48))
      + ((digitChar c).toNat - 48) = 100 * a + 10 * b + c
  rw [digitChar_toNat ha, digitChar_toNat hb, digitChar_toNat hc]
  omega

lemma code3_length {n : Nat} (h : n < 1000) : (code3 n).length = 3 := by
  have := natDigits_length_le3 h
  unfold code3 padStart
  rw [List.length_append, List.length_replicate]
  omega

lemma code3_eq {n : Nat} (h : n < 1000) :
    code3 n = [digitChar (n / 100), digitChar (n / 10 % 10), digitChar (n % 10)] := by
  unfold code3 padStart
  by_cases h1 : n < 10
  · rw [natDigits_small h1]
    have e1 : n / 100 = 0 := by omega
    have e2 : n / 10 % 10 = 0 := by omega
    have e3 : n % 10 = n := by omega
    rw [e1, e2, e3]
    rfl
  · by_cases h2 : n < 100
    · rw [natDigits_step (by omega), natDigits_small (show n / 10 < 10 by omega)]
      have e1 : n / 100 = 0 := by omega
      have e2 : n / 10 % 10 = n / 10 := by omega
      rw [e1, e2]
      rfl
    · rw [natDigits_step (by omega), natDigits_step (show 10 ≤ n / 10 by omega),
        natDigits_small (show n / 10 / 10 < 10 by omega)]
      have e1 : n / 10 / 10 = n / 100 := by omega
      rw [e1]
      rfl

lemma digitsToNat_code3 {n : Nat} (h : n < 1000) : digitsToNat (code3 n) = n := by
  rw [code3_eq h, digitsToNat_triple (by omega) (by omega) (by omega)]
  omega

lemma code3_inj {i j : Nat} (hi : i < 1000) (hj : j < 1000) (h : code3 i = code3 j) :
    i = j := by
  have h1 := digitsToNat_code3 hi
  rw [h, digitsToNat_code3 hj] at h1
  omega

lemma code3_1000 : code3 1000 = ofStr "1000" := by decide

lemma code3_ne_of_ne {i j : Nat} (hi : i ≤ 999) (hj : j ≤ 1000) (hne : i ≠ j) :
    code3 i ≠ code3 j := by
  intro h
  by_cases h1 : j ≤ 999
  · exact hne (code3_inj (by omega) (by omega) h)
  · have hlen := code3_length (show i < 1000 by omega)
    have hj1000 : j = 1000 := by omega
    subst hj1000
    rw [h] at hlen
    have h4 : (code3 1000).length = 4 := by decide
    omega

lemma parseInt10_code3 {n : Nat} (h : n < 1000) : parseInt10 (code3 n) = some ((n : Nat) : Int) := by
  have d1 : n / 100 < 10 := by omega
  have d2 : n / 10 % 10 < 10 := by omega
  have d3 : n % 10 < 10 := by omega
  rw [code3_eq h]
  simp only [parseInt10, parseUnsigned, List.dropWhile_cons, List.takeWhile_cons,
    isJsWhitespace_digitChar d1, isDigitChar_digitChar d1, isDigitChar_digitChar d2,
    isDigitChar_digitChar d3, Bool.false_eq_true, if_false, if_true, List.takeWhile_nil,
    if_neg (digitChar_ne_plus d1), if_neg (digitChar_ne_minus d1)]
  have hne : (digitChar (n / 100) :: digitChar (n / 10 % 10) :: [digitChar (n % 10)]) ≠ [] := by
    simp
  rw [if_neg hne]
  have hv : digitsToNat [digitChar (n / 100), digitChar (n / 10 % 10), digitChar (n % 10)] = n := by
    rw [digitsToNat_triple d1 d2 d3]
    omega
  simp [hv]

lemma lexLt_append_same (p : JStr) : ∀ a b : JStr, lexLt (p ++ a) (p ++ b) = lexLt a b := by
  induction p with
  | nil => intro a b; rfl
  | cons c cs ih =>
    intro a b
    show lexLt (c :: (cs ++ a)) (c :: (cs ++ b)) = lexLt a b
    simp only [lexLt, Nat.lt_irrefl, if_false, ih]

lemma lexLt_triple {a b c d e f : Char} :
    lexLt [a, b, c] [d, e, f] = true ↔
      (a.toNat < d.toNat ∨ (a.toNat = d.toNat ∧
        (b.toNat < e.toNat ∨ (b.toNat = e.toNat ∧ c.toNat < f.toNat)))) := by
  simp only [lexLt]
  split_ifs <;> simp <;> omega

lemma lexLt_code3_iff {i j : Nat} (hi : i < 1000) (hj : j < 1000) :
    (lexLt (code3 i) (code3 j) = true) ↔ i < j := by
  rw [code3_eq hi, code3_eq hj, lexLt_triple,
    digitChar_toNat (show i / 100 < 10 by omega), digitChar_toNat (show j / 100 < 10 by omega),
    digitChar_toNat (show i / 10 % 10 < 10 by omega),
    digitChar_toNat (show j / 10 % 10 < 10 by omega),
    digitChar_toNat (show i % 10 < 10 by omega), digitChar_toNat (show j % 10 < 10 by omega)]
  omega

lemma foldl_regMaxStep_map (l : List Student) : ∀ acc : Option Student,
    (l.foldl regMaxStep acc).map (fun r => r.reg_no) =
      (l.map (fun r => r.reg_no)).foldl maxRegStep (acc.map (fun r => r.reg_no)) := by
  induction l with
  | nil => intro acc; rfl
  | cons r rs ih =>
    intro acc
    rw [List.foldl_cons, List.map_cons, List.foldl_cons, ih]
    congr 1
    cases acc with
    | none => rfl
    | some m =>
      show (if lexLt m.reg_no r.reg_no then some r else some m).map (fun r => r.reg_no) =
        if lexLt m.reg_no r.reg_no then some r.reg_no else some m.reg_no
      by_cases h : lexLt m.reg_no r.reg_no = true
      · rw [if_pos h, if_pos h, Option.map_some']
      · rw [if_neg h, if_neg h, Option.map_some']

lemma chainRegs_max {pfx : JStr} : ∀ k : Nat, k ≤ 999 →
    (chainRegs pfx k).foldl maxRegStep none =
      if k = 0 then none else some (pfx ++ code3 k) := by
  intro k
  induction k with
  | zero => intro _; rfl
  | succ k ih =>
    intro hk
    show ((chainRegs pfx k ++ [pfx ++ code3 (k + 1)]).foldl maxRegStep none) = _
    rw [List.foldl_append, ih (by omega), if_neg (Nat.succ_ne_zero k)]
    by_cases h0 : k = 0
    · subst h0; rfl
    · rw [if_neg h0]
      simp only [List.foldl_cons, List.foldl_nil, maxRegStep]
      have hlt : lexLt (pfx ++ code3 k) (pfx ++ code3 (k + 1)) = true := by
        rw [lexLt_append_same]
        exact (lexLt_code3_iff (by omega) (by omega)).mpr (by omega)
      rw [if_pos hlt]

lemma chainRegs_mem {pfx : JStr} : ∀ k, ∀ s ∈ chainRegs pfx k,
    ∃ i, 1 ≤ i ∧ i ≤ k ∧ s = pfx ++ code3 i := by
  intro k
  induction k with
  | zero => intro s hs; simp [chainRegs] at hs
  | succ k ih =>
    intro s hs
    rw [chainRegs] at hs
    rcases List.mem_append.mp hs with hs | hs
    · obtain ⟨i, h1, h2, h3⟩ := ih s hs
      exact ⟨i, h1, by omega, h3⟩
    · rw [List.mem_singleton] at hs
      exact ⟨k + 1, by omega, by omega, hs⟩

lemma likeMatch_self_append (p : JStr) : ∀ t : JStr, likeMatch p (p ++ t) = true := by
  induction p with
  | nil => intro t; rfl
  | cons c cs ih =>
    intro t
    show ((foldCaseNat c == foldCaseNat c) && likeMatch cs (cs ++ t)) = true
    rw [beq_self_eq_true, ih, Bool.and_self]

lemma pfx_append_ne_nil (year : Nat) (t : JStr) : pfxOf year ++ t ≠ [] := by
  simp [pfxOf]

lemma jsSliceLast3_append_code3 {pfx : JStr} {k : Nat} (h : k < 1000) :
    jsSliceLast3 (pfx ++ code3 k) = code3 k := by
  unfold jsSliceLast3
  rw [List.length_append, code3_length h, show pfx.length + 3 - 3 = pfx.length from by omega]
  exact List.drop_left pfx (code3 k)

lemma jsIntToStr_natCast (n : Nat) : jsIntToStr ((n : Nat) : Int) = natDigits n := rfl

lemma genReg_of_none {year : Nat} {db : DB}
    (hnone : (db.rows.filter (fun r => likeMatch (pfxOf year) r.reg_no)).foldl regMaxStep none
      = none) :
    generateRegistrationNumber year db = pfxOf year ++ code3 1 := by
  simp only [generateRegistrationNumber, latestLike]
  rw [hnone]
  rfl

lemma genReg_of_max {year : Nat} {db : DB} {m : Nat} (hm : m < 1000)
    (hmax : ((db.rows.filter (fun r => likeMatch (pfxOf year) r.reg_no)).foldl regMaxStep
      none).map (fun r => r.reg_no) = some (pfxOf year ++ code3 m)) :
    generateRegistrationNumber year db = pfxOf year ++ code3 (m + 1) := by
  obtain ⟨row, hrow, hreg⟩ := Option.map_eq_some'.mp hmax
  simp only [generateRegistrationNumber, latestLike]
  rw [hrow]
  simp only [nextSequenceOf]
  rw [hreg, if_neg (pfx_append_ne_nil year (code3 m)), jsSliceLast3_append_code3 hm,
    parseInt10_code3 hm]
  show pfxOf year ++ padStart 3 '0' (jsIntToStr (((m : Nat) : Int) + 1)) =
    pfxOf year ++ code3 (m + 1)
  rw [show ((m : Nat) : Int) + 1 = (((m + 1 : Nat) : Nat) : Int) from by omega,
    jsIntToStr_natCast]
  rfl

lemma filter_like_of_chain {year : Nat} {rows : List Student} {k : Nat}
    (h : rows.map (fun r => r.reg_no) = chainRegs (pfxOf year) k) :
    rows.filter (fun r => likeMatch (pfxOf year) r.reg_no) = rows := by
  rw [List.filter_eq_self]
  intro r hr
  have hmem : r.reg_no ∈ chainRegs (pfxOf year) k := by
    rw [← h]
    exact List.mem_map_of_mem _ hr
  obtain ⟨i, _, _, hi⟩ := chainRegs_mem k r.reg_no hmem
  rw [hi]
  exact likeMatch_self_append _ _

lemma genReg_of_filtered_chain {year k : Nat} {db : DB} (hk : k ≤ 999)
    (hfil : (db.rows.filter (fun r => likeMatch (pfxOf year) r.reg_no)).map
      (fun r => r.reg_no) = chainRegs (pfxOf year) k) :
    generateRegistrationNumber year db = pfxOf year ++ code3 (k + 1) := by
  have hmap := foldl_regMaxStep_map
    (db.rows.filter (fun r => likeMatch (pfxOf year) r.reg_no)) none
  rw [Option.map_none', hfil, chainRegs_max k (by omega)] at hmap
  by_cases h0 : k = 0
  · subst h0
    rw [if_pos rfl] at hmap
    rw [genReg_of_none (Option.map_eq_none'.mp hmap)]
  · rw [if_neg h0] at hmap
    exact genReg_of_max (by omega) hmap

lemma genReg_overflow {year : Nat} {db : DB}
    (hfil : (db.rows.filter (fun r => likeMatch (pfxOf year) r.reg_no)).map
      (fun r => r.reg_no) = chainRegs (pfxOf year) 999 ++ [pfxOf year ++ code3 1000]) :
    generateRegistrationNumber year db = pfxOf year ++ code3 1000 := by
  have hmap := foldl_regMaxStep_map
    (db.rows.filter (fun r => likeMatch (pfxOf year) r.reg_no)) none
  rw [Option.map_none', hfil, List.foldl_append, chainRegs_max 999 (by omega),
    if_neg (show (999 : Nat) ≠ 0 from by omega)] at hmap
  simp only [List.foldl_cons, List.foldl_nil, maxRegStep] at hmap
  have hlt : lexLt (pfxOf year ++ code3 999) (pfxOf year ++ code3 1000) = false := by
    rw [lexLt_append_same]
    decide
  rw [hlt] at hmap
  simp only [Bool.false_eq_true, if_false] at hmap
  have := genReg_of_max (show 999 < 1000 from by omega) hmap
  rw [this]

lemma registerF_created {year : Nat} {db : DB} {b : RegBody} {rn : JStr}
    (hb : missingFields b = []) (hgen : generateRegistrationNumber year db = rn)
    (hfresh : ∀ r ∈ db.rows, r.reg_no ≠ rn) :
    registerF year db b noFaults =
      (.created ⟨rn, b.name.getD [], b.email.getD [], b.department.getD [],
        b.address.getD [], b.division.getD []⟩,
       ⟨db.rows ++ [⟨db.nextId, rn, jsTrim (b.name.getD []), jsTrim (b.email.getD []),
        jsTrim (b.department.getD []), jsTrim (b.address.getD []),
        jsTrim (b.division.getD [])⟩], db.nextId + 1⟩) := by
  have hany : (db.rows.any (fun r => r.reg_no == rn)) = false := by
    rw [List.any_eq_false]
    intro r hr
    simpa [beq_iff_eq] using hfresh r hr
  simp only [registerF, insertStudent, noFaults, hb, hgen, hany, if_pos rfl, if_true,
    Option.isSome_none, Bool.false_eq_true, if_false]

lemma registerF_dup {year : Nat} {db : DB} {b : RegBody}
    (hb : missingFields b = [])
    (hdup : ∃ r ∈ db.rows, r.reg_no = generateRegistrationNumber year db) :
    registerF year db b noFaults = (.serverError, db) := by
  have hany : (db.rows.any (fun r => r.reg_no == generateRegistrationNumber year db)) = true := by
    rw [List.any_eq_true]
    obtain ⟨r, hr, he⟩ := hdup
    exact ⟨r, hr, by simpa [beq_iff_eq] using he⟩
  simp only [registerF, insertStudent, noFaults, hb, hany, if_pos rfl, if_true,
    Option.isSome_none, Bool.false_eq_true, if_false]

lemma runSerial_map (year : Nat) {bs : Nat → RegBody}
    (hv : ∀ i, missingFields (bs i) = []) :
    ∀ k, k ≤ 999 →
      (runSerial year bs k).rows.map (fun r => r.reg_no) = chainRegs (pfxOf year) k := by
  intro k
  induction k with
  | zero => intro _; rfl
  | succ k ih =>
    intro hk
    have hmap := ih (by omega)
    have hfil := filter_like_of_chain hmap
    have hgen : generateRegistrationNumber year (runSerial year bs k)
        = pfxOf year ++ code3 (k + 1) := by
      apply genReg_of_filtered_chain (show k ≤ 999 from by omega)
      rw [hfil]
      exact hmap
    have hfresh : ∀ r ∈ (runSerial year bs k).rows, r.reg_no ≠ pfxOf year ++ code3 (k + 1) := by
      intro r hr hcontra
      have hmem : r.reg_no ∈ chainRegs (pfxOf year) k := by
        rw [← hmap]
        exact List.mem_map_of_mem _ hr
      obtain ⟨i, h1, h2, h3⟩ := chainRegs_mem k r.reg_no hmem
      rw [h3] at hcontra
      exact code3_ne_of_ne (by omega) (by omega) (by omega)
        (List.append_cancel_left hcontra)
    show ((registerF year (runSerial year bs k) (bs k) noFaults).2).rows.map
      (fun r => r.reg_no) = _
    rw [registerF_created (hv k) hgen hfresh]
    show ((runSerial year bs k).rows ++ [_]).map (fun r : Student => r.reg_no) = _
    rw [List.map_append, hmap]
    rfl

lemma runSerial_map_1000 (year : Nat) {bs : Nat → RegBody}
    (hv : ∀ i, missingFields (bs i) = []) :
    (runSerial year bs 1000).rows.map (fun r => r.reg_no) =
      chainRegs (pfxOf year) 999 ++ [pfxOf year ++ code3 1000] := by
  have hmap := runSerial_map year hv 999 (by omega)
  have hfil := filter_like_of_chain hmap
  have hgen : generateRegistrationNumber year (runSerial year bs 999)
      = pfxOf year ++ code3 1000 := by
    apply genReg_of_filtered_chain (show (999 : Nat) ≤ 999 from by omega)
    rw [hfil]
    exact hmap
  have hfresh : ∀ r ∈ (runSerial year bs 999).rows, r.reg_no ≠ pfxOf year ++ code3 1000 := by
    intro r hr hcontra
    have hmem : r.reg_no ∈ chainRegs (pfxOf year) 999 := by
      rw [← hmap]
      exact List.mem_map_of_mem _ hr
    obtain ⟨i, h1, h2, h3⟩ := chainRegs_mem 999 r.reg_no hmem
    rw [h3] at hcontra
    exact code3_ne_of_ne (by omega) (by omega) (by omega)
      (List.append_cancel_left hcontra)
  show ((registerF year (runSerial year bs 999) (bs 999) noFaults).2).rows.map
    (fun r => r.reg_no) = _
  rw [registerF_created (hv 999) hgen hfresh]
  show ((runSerial year bs 999).rows ++ [_]).map (fun r : Student => r.reg_no) = _
  rw [List.map_append, hmap]
  rfl

lemma filter_like_of_overflow {year : Nat} {rows : List Student}
    (h : rows.map (fun r => r.reg_no) = chainRegs (pfxOf year) 999 ++ [pfxOf year ++ code3 1000]) :
    rows.filter (fun r => likeMatch (pfxOf year) r.reg_no) = rows := by
  rw [List.filter_eq_self]
  intro r hr
  have hmem : r.reg_no ∈ chainRegs (pfxOf year) 999 ++ [pfxOf year ++ code3 1000] := by
    rw [← h]
    exact List.mem_map_of_mem _ hr
  rcases List.mem_append.mp hmem with hm | hm
  · obtain ⟨i, _, _, hi⟩ := chainRegs_mem 999 r.reg_no hm
    rw [hi]
    exact likeMatch_self_append _ _
  · rw [List.mem_singleton] at hm
    rw [hm]
    exact likeMatch_self_append _ _

lemma registerF_at_1000 (year : Nat) {bs : Nat → RegBody}
    (hv : ∀ i, missingFields (bs i) = []) {j : Nat} (hj : runSerial year bs j = runSerial year bs 1000) :
    generateRegistrationNumber year (runSerial year bs j) = pfxOf year ++ code3 1000 ∧
      registerF year (runSerial year bs j) (bs j) noFaults
        = (.serverError, runSerial year bs j) := by
  have hmap : (runSerial year bs j).rows.map (fun r => r.reg_no)
      = chainRegs (pfxOf year) 999 ++ [pfxOf year ++ code3 1000] := by
    rw [hj]
    exact runSerial_map_1000 year hv
  have hgen : generateRegistrationNumber year (runSerial year bs j)
      = pfxOf year ++ code3 1000 := by
    apply genReg_overflow
    rw [filter_like_of_overflow hmap]
    exact hmap
  refine ⟨hgen, registerF_dup (hv j) ?_⟩
  have hmem : pfxOf year ++ code3 1000 ∈ (runSerial year bs j).rows.map (fun r => r.reg_no) := by
    rw [hmap]
    exact List.mem_append.mpr (Or.inr (List.mem_singleton.mpr rfl))
  obtain ⟨r, hr, he⟩ := List.mem_map.mp hmem
  exact ⟨r, hr, by rw [he, hgen]⟩

lemma runSerial_stuck (year : Nat) {bs : Nat → RegBody}
    (hv : ∀ i, missingFields (bs i) = []) :
    ∀ m, runSerial year bs (1000 + m) = runSerial year bs 1000 := by
  intro m
  induction m with
  | zero => rfl
  | succ m ih =>
    show (registerF year (runSerial year bs (1000 + m)) (bs (1000 + m)) noFaults).2 = _
    rw [(registerF_at_1000 year hv ih).2]
    exact ih

lemma serial_behavior (year : Nat) {bs : Nat → RegBody}
    (hv : ∀ i, missingFields (bs i) = []) :
    (∀ k, k < 1000 → ∃ resp db2,
        registerF year (runSerial year bs k) (bs k) noFaults = (.created resp, db2) ∧
        resp.reg_no = pfxOf year ++ code3 (k + 1)) ∧
    (∀ k, 1000 ≤ k →
        generateRegistrationNumber year (runSerial year bs k) = pfxOf year ++ code3 1000 ∧
        registerF year (runSerial year bs k) (bs k) noFaults
          = (.serverError, runSerial year bs k)) := by
  constructor
  · intro k hk
    have hmap := runSerial_map year hv k (by omega)
    have hfil := filter_like_of_chain hmap
    have hgen : generateRegistrationNumber year (runSerial year bs k)
        = pfxOf year ++ code3 (k + 1) := by
      apply genReg_of_filtered_chain (show k ≤ 999 from by omega)
      rw [hfil]
      exact hmap
    have hfresh : ∀ r ∈ (runSerial year bs k).rows, r.reg_no ≠ pfxOf year ++ code3 (k + 1) := by
      intro r hr hcontra
      have hmem : r.reg_no ∈ chainRegs (pfxOf year) k := by
        rw [← hmap]
        exact List.mem_map_of_mem _ hr
      obtain ⟨i, h1, h2, h3⟩ := chainRegs_mem k r.reg_no hmem
      rw [h3] at hcontra
      exact code3_ne_of_ne (by omega) (by omega) (by omega)
        (List.append_cancel_left hcontra)
    exact ⟨_, _, registerF_created (hv k) hgen hfresh, rfl⟩
  · intro k hk
    have hj : runSerial year bs k = runSerial year bs 1000 := by
      have : k = 1000 + (k - 1000) := by omega
      rw [this]
      exact runSerial_stuck year hv (k - 1000)
    exact registerF_at_1000 year hv hj

lemma registerF_success_shape {year : Nat} {db : DB} {b : RegBody} {f : Faults}
    (hm : missingFields b = []) (hg : f.getFault.isSome = false)
    (hi : f.insFault.isSome = false)
    (ha : (db.rows.any fun r => r.reg_no == generateRegistrationNumber year db) = false) :
    registerF year db b f =
      (.created ⟨generateRegistrationNumber year db, b.name.getD [], b.email.getD [],
        b.department.getD [], b.address.getD [], b.division.getD []⟩,
       ⟨db.rows ++ [⟨db.nextId, generateRegistrationNumber year db, jsTrim (b.name.getD []),
        jsTrim (b.email.getD []), jsTrim (b.department.getD []), jsTrim (b.address.getD []),
        jsTrim (b.division.getD [])⟩], db.nextId + 1⟩) := by
  simp only [registerF, insertStudent, hm, hg, hi, ha, if_pos rfl, if_true,
    Bool.false_eq_true, if_false]

lemma registerF_created_inv {year : Nat} {db : DB} {b : RegBody} {f : Faults}
    {resp : RespStudent} {db2 : DB}
    (h : registerF year db b f = (.created resp, db2)) :
    missingFields b = [] ∧
    resp = ⟨generateRegistrationNumber year db, b.name.getD [], b.email.getD [],
      b.department.getD [], b.address.getD [], b.division.getD []⟩ ∧
    db2.rows = db.rows ++ [⟨db.nextId, generateRegistrationNumber year db,
      jsTrim (b.name.getD []), jsTrim (b.email.getD []), jsTrim (b.department.getD []),
      jsTrim (b.address.getD []), jsTrim (b.division.getD [])⟩] := by
  by_cases hm : missingFields b = []
  · simp only [registerF, if_pos hm] at h
    by_cases hg : f.getFault.isSome = true
    · rw [if_pos hg] at h
      simp at h
    · rw [if_neg hg] at h
      by_cases hi : f.insFault.isSome = true
      · rw [if_pos hi] at h
        simp at h
      · rw [if_neg hi] at h
        simp only [insertStudent] at h
        by_cases ha : (db.rows.any fun r => r.reg_no == generateRegistrationNumber year db) = true
        · rw [if_pos ha] at h
          simp at h
        · rw [if_neg ha] at h
          simp only [Prod.mk.injEq, RegOutcome.created.injEq] at h
          refine ⟨hm, h.1.symm, ?_⟩
          rw [← h.2]
  · simp only [registerF, if_neg hm] at h
    simp at h

lemma falsyStr_eq_false {o : Option JStr} (h : falsyStr o = false) : ∃ s, o = some s ∧ s ≠ [] := by
  cases o with
  | none => simp [falsyStr] at h
  | some s =>
    refine ⟨s, rfl, ?_⟩
    intro hs
    subst hs
    simp [falsyStr] at h

lemma missingFields_eq_nil {b : RegBody} (h : missingFields b = []) :
    falsyStr b.name = false ∧ falsyStr b.email = false ∧ falsyStr b.department = false ∧
      falsyStr b.address = false ∧ falsyStr b.division = false := by
  by_cases h1 : falsyStr b.name = true <;> by_cases h2 : falsyStr b.email = true <;>
    by_cases h3 : falsyStr b.department = true <;> by_cases h4 : falsyStr b.address = true <;>
    by_cases h5 : falsyStr b.division = true <;>
    simp_all [missingFields]

lemma missingFields_ne_nil {b : RegBody}
    (h : falsyStr b.name = true ∨ falsyStr b.email = true ∨ falsyStr b.department = true ∨
      falsyStr b.address = true ∨ falsyStr b.division = true) :
    missingFields b ≠ [] := by
  intro hnil
  have := missingFields_eq_nil hnil
  rcases h with h | h | h | h | h <;> simp_all

lemma mem_missingFields (b : RegBody) :
    (ofStr "name" ∈ missingFields b ↔ falsyStr b.name = true) ∧
    (ofStr "email" ∈ missingFields b ↔ falsyStr b.email = true) ∧
    (ofStr "department" ∈ missingFields b ↔ falsyStr b.department = true) ∧
    (ofStr "address" ∈ missingFields b ↔ falsyStr b.address = true) ∧
    (ofStr "division" ∈ missingFields b ↔ falsyStr b.division = true) := by
  by_cases h1 : falsyStr b.name = true <;> by_cases h2 : falsyStr b.email = true <;>
    by_cases h3 : falsyStr b.department = true <;> by_cases h4 : falsyStr b.address = true <;>
    by_cases h5 : falsyStr b.division = true <;>
    simp_all [missingFields, ofStr]

lemma char_toNat_injective {p c : Char} (h : p.toNat = c.toNat) : p = c := by
  have := congrArg Char.ofNat h
  rwa [Char.ofNat_toNat, Char.ofNat_toNat] at this

lemma foldCase_beq_eq {p c : Char}
    (hp : (65 ≤ p.toNat ∧ p.toNat ≤ 90) ∨ (48 ≤ p.toNat ∧ p.toNat ≤ 57))
    (hc : isLowerAscii c = false) :
    (foldCaseNat p == foldCaseNat c) = (p == c) := by
  have hcn : ¬ (97 ≤ c.toNat ∧ c.toNat ≤ 122) := by
    intro hx
    rw [show isLowerAscii c = true from decide_eq_true hx] at hc
    exact absurd hc (by simp)
  by_cases hpc : p = c
  · subst hpc
    simp
  · have hne : p.toNat ≠ c.toNat := fun he => hpc (char_toNat_injective he)
    have hval : foldCaseNat p ≠ foldCaseNat c := by
      unfold foldCaseNat
      split_ifs <;> omega
    rw [beq_eq_false_iff_ne.mpr hval, beq_eq_false_iff_ne.mpr hpc]

lemma pfx_chars (year : Nat) :
    ∀ p ∈ pfxOf year, (65 ≤ p.toNat ∧ p.toNat ≤ 90) ∨ (48 ≤ p.toNat ∧ p.toNat ≤ 57) := by
  intro p hp
  rw [pfxOf, List.mem_cons, List.mem_cons, List.mem_cons] at hp
  rcases hp with h | h | h | h
  · subst h; left; decide
  · subst h; left; decide
  · subst h; left; decide
  · right
    have := natDigits_all_digits year p h
    rw [isDigitChar] at this
    exact of_decide_eq_true this

lemma likeMatch_eq_isPrefixOf : ∀ p s : JStr,
    (∀ c ∈ p, (65 ≤ c.toNat ∧ c.toNat ≤ 90) ∨ (48 ≤ c.toNat ∧ c.toNat ≤ 57)) →
    noLowerAscii s = true →
    likeMatch p s = p.isPrefixOf s := by
  intro p
  induction p with
  | nil => intro s _ _; cases s <;> rfl
  | cons a as ih =>
    intro s hp hs
    cases s with
    | nil => rfl
    | cons b bs =>
      rw [noLowerAscii, List.all_cons, Bool.and_eq_true] at hs
      obtain ⟨hb1, hbs⟩ := hs
      rw [Bool.not_eq_eq_eq_not, Bool.not_true] at hb1
      show ((foldCaseNat a == foldCaseNat b) && likeMatch as bs)
        = ((a == b) && as.isPrefixOf bs)
      rw [foldCase_beq_eq (hp a (List.mem_cons_self a as)) hb1,
        ih bs (fun c hc => hp c (List.mem_cons_of_mem a hc)) hbs]

lemma nextSequenceOf_eq_specNextSeq (x : Option Student) :
    nextSequenceOf x = specNextSeq x := by
  cases x with
  | none => rfl
  | some row =>
    by_cases h : row.reg_no = []
    · rw [nextSequenceOf, if_pos h, specNextSeq, h]
      rfl
    · rw [nextSequenceOf, if_neg h, specNextSeq]

lemma insertDesc_of_lt {r : Student} : ∀ {m : List Student}, (∀ s ∈ m, r.id < s.id) →
    insertDesc r m = m ++ [r] := by
  intro m
  induction m with
  | nil => intro _; rfl
  | cons s ss ih =>
    intro h
    have hns : ¬ (s.id ≤ r.id) := by
      have := h s (List.mem_cons_self s ss)
      omega
    rw [insertDesc, if_neg hns, ih (fun x hx => h x (List.mem_cons_of_mem s hx))]
    rfl

lemma sortByIdDesc_of_strictInc : ∀ {l : List Student},
    l.Pairwise (fun a b => a.id < b.id) → sortByIdDesc l = l.reverse := by
  intro l
  induction l with
  | nil => intro _; rfl
  | cons r rs ih =>
    intro h
    rw [List.pairwise_cons] at h
    show insertDesc r (sortByIdDesc rs) = (r :: rs).reverse
    rw [ih h.2, List.reverse_cons]
    exact insertDesc_of_lt (fun s hs => h.1 s (List.mem_reverse.mp hs))

lemma registerF_rows_cases (year : Nat) (db : DB) (b : RegBody) (f : Faults) :
    (registerF year db b f).2 = db ∨
    ((db.rows.any fun r => r.reg_no == generateRegistrationNumber year db) = false ∧
      (registerF year db b f).2 =
        ⟨db.rows ++ [⟨db.nextId, generateRegistrationNumber year db,
          jsTrim (b.name.getD []), jsTrim (b.email.getD []), jsTrim (b.department.getD []),
          jsTrim (b.address.getD []), jsTrim (b.division.getD [])⟩], db.nextId + 1⟩) := by
  by_cases hm : missingFields b = []
  · by_cases hg : f.getFault.isSome = true
    · left
      simp only [registerF, if_pos hm, if_pos hg]
    · by_cases hi : f.insFault.isSome = true
      · left
        simp only [registerF, if_pos hm, if_neg hg, if_pos hi]
      · by_cases ha : (db.rows.any fun r => r.reg_no == generateRegistrationNumber year db) = true
        · left
          simp only [registerF, insertStudent, if_pos hm, if_neg hg, if_neg hi, if_pos ha]
        · right
          refine ⟨by simpa using ha, ?_⟩
          rw [registerF_success_shape hm (by simpa using hg) (by simpa using hi)
            (by simpa using ha)]
  · left
    simp only [registerF, if_neg hm]

lemma second_registration {year : Nat} {db0 : DB} (row1 : Student) (nid : Nat) {b2 : RegBody}
    (hempty : ∀ r ∈ db0.rows, likeMatch (pfxOf year) r.reg_no = false)
    (hrow1 : row1.reg_no = pfxOf year ++ code3 1)
    (hb2 : missingFields b2 = []) :
    ∃ r2 db2, registerF year ⟨db0.rows ++ [row1], nid⟩ b2 noFaults = (.created r2, db2) ∧
      r2.reg_no = pfxOf year ++ code3 2 := by
  have hfil0 : db0.rows.filter (fun r => likeMatch (pfxOf year) r.reg_no) = [] :=
    List.filter_eq_nil_iff.mpr (fun r hr => by simp [hempty r hr])
  have hgen2 : generateRegistrationNumber year ⟨db0.rows ++ [row1], nid⟩
      = pfxOf year ++ code3 2 := by
    apply genReg_of_filtered_chain (show (1 : Nat) ≤ 999 from by omega)
    show ((db0.rows ++ [row1]).filter (fun r => likeMatch (pfxOf year) r.reg_no)).map
      (fun r => r.reg_no) = _
    rw [List.filter_append, hfil0, List.nil_append, List.filter_cons,
      if_pos (show likeMatch (pfxOf year) row1.reg_no = true from by
        rw [hrow1]; exact likeMatch_self_append _ _)]
    rw [List.filter_nil, List.map_singleton, hrow1]
    rfl
  have hfresh2 : ∀ r ∈ (db0.rows ++ [row1]), r.reg_no ≠ pfxOf year ++ code3 2 := by
    intro r hr hc
    rcases List.mem_append.mp hr with hr | hr
    · have hm := hempty r hr
      rw [hc, likeMatch_self_append] at hm
      exact absurd hm (by simp)
    · rw [List.mem_singleton] at hr
      subst hr
      rw [hrow1] at hc
      exact code3_ne_of_ne (by omega) (by omega) (by omega)
        (List.append_cancel_left hc)
  exact ⟨_, _, registerF_created hb2 hgen2 hfresh2, rfl⟩

/-- Claim C1: the registration-number allocator, given the current calendar year, queries
the store for the single record whose registration number starts with the COL-year
prefix, ordered by registration number descending with limit one; if one exists it parses
the last three characters in base ten and uses parsed plus one (or one on parse failure,
or when nothing was found), and returns the prefix plus the sequence zero-padded to width
three. Formalised: generateRegistrationNumber agrees with allocSpec, the literal
transcription of the claim, on every store whose reg_no values contain no lowercase ASCII
letter (true of every record this system writes; the code queries with SQLite LIKE,
which is ASCII-case-insensitive, where the claim says starts-with). -/
theorem c1_allocator_matches_spec (year : Nat) (db : DB)
    (h : ∀ r ∈ db.rows, noLowerAscii r.reg_no = true) :
    generateRegistrationNumber year db = allocSpec year db := by
  have hfil : db.rows.filter (fun r => likeMatch (pfxOf year) r.reg_no)
      = db.rows.filter (fun r => (pfxOf year).isPrefixOf r.reg_no) :=
    List.filter_congr (fun r hr => likeMatch_eq_isPrefixOf (pfxOf year) r.reg_no
      (pfx_chars year) (h r hr))
  simp only [generateRegistrationNumber, latestLike, allocSpec, hfil,
    nextSequenceOf_eq_specNextSeq]

/-- Witness for C1 at a concrete store holding one 2025 record. -/
theorem c1_allocator_matches_spec_witness :
    generateRegistrationNumber 2025 adb = allocSpec 2025 adb :=
  c1_allocator_matches_spec 2025 adb (by decide)

/-- Claim C2 (amended): for serial valid registrations of a year started from an empty
store, the k-th call (k below 1000, zero-indexed) succeeds and is assigned sequence
exactly k plus one, strictly increasing by one from one; but from the 1001st call on, the
descending text ordering ranks the 999 record above the 1000 record, so the allocator
re-issues sequence 1000, the unique-constraint insert fails, and the store no longer
changes. -/
theorem c2_sequence_amended (year : Nat) (bs : Nat → RegBody)
    (hv : ∀ i, missingFields (bs i) = []) :
    (∀ k, k < 1000 → ∃ resp db2,
        registerF year (runSerial year bs k) (bs k) noFaults = (.created resp, db2) ∧
        resp.reg_no = pfxOf year ++ code3 (k + 1)) ∧
    (∀ k, 1000 ≤ k →
        generateRegistrationNumber year (runSerial year bs k) = pfxOf year ++ code3 1000 ∧
        registerF year (runSerial year bs k) (bs k) noFaults
          = (.serverError, runSerial year bs k)) :=
  serial_behavior year hv

/-- Witness for the amended C2: the very first call of the run is assigned COL2025001. -/
theorem c2_sequence_amended_witness :
    ∃ resp db2, registerF 2025 (runSerial 2025 cBs 0) (cBs 0) noFaults
      = (.created resp, db2) ∧ resp.reg_no = pfxOf 2025 ++ code3 1 :=
  (c2_sequence_amended 2025 cBs
    (fun _ => (show missingFields okBody = [] from by decide))).1 0 (by omega)

/-- Counterexample to C2 as stated: in the serial run of constant valid submissions at
year 2025, call 1000 (index 999) is assigned COL20251000, and call 1001 (index 1000)
allocates the same number COL20251000 again instead of one more, and its insert fails
with a server error: the per-call assigned sequence values are not strictly increasing
by one without gaps. -/
theorem c2_sequence_counterexample :
    (∃ resp db2, registerF 2025 (runSerial 2025 cBs 999) (cBs 999) noFaults
        = (.created resp, db2) ∧ resp.reg_no = ofStr "COL20251000") ∧
    generateRegistrationNumber 2025 (runSerial 2025 cBs 1000) = ofStr "COL20251000" ∧
    (registerF 2025 (runSerial 2025 cBs 1000) (cBs 1000) noFaults).1 = .serverError := by
  have hv : ∀ i, missingFields (cBs i) = [] :=
    fun _ => (show missingFields okBody = [] from by decide)
  have he : pfxOf 2025 ++ code3 1000 = ofStr "COL20251000" := by decide
  obtain ⟨h1, h2⟩ := serial_behavior 2025 hv
  refine ⟨?_, ?_, ?_⟩
  · obtain ⟨resp, db2, ha, hb⟩ := h1 999 (by omega)
    refine ⟨resp, db2, ha, ?_⟩
    rw [hb]
    exact he
  · rw [(h2 1000 (by omega)).1]
    exact he
  · rw [(h2 1000 (by omega)).2]

/-- Claim C3: when the store contains no record of the current year, the first
registration is assigned COL-year-001 and an immediately following second registration
is assigned COL-year-002. -/
theorem c3_first_registrations (year : Nat) (db : DB) (b1 b2 : RegBody)
    (hempty : ∀ r ∈ db.rows, likeMatch (pfxOf year) r.reg_no = false)
    (hb1 : missingFields b1 = []) (hb2 : missingFields b2 = []) :
    ∃ r1 db1 r2 db2,
      registerF year db b1 noFaults = (.created r1, db1) ∧
      r1.reg_no = pfxOf year ++ ofStr "001" ∧
      registerF year db1 b2 noFaults = (.created r2, db2) ∧
      r2.reg_no = pfxOf year ++ ofStr "002" := by
  have hfil : db.rows.filter (fun r => likeMatch (pfxOf year) r.reg_no) = [] :=
    List.filter_eq_nil_iff.mpr (fun r hr => by simp [hempty r hr])
  have hgen1 : generateRegistrationNumber year db = pfxOf year ++ code3 1 := by
    apply genReg_of_filtered_chain (show (0 : Nat) ≤ 999 from by omega)
    rw [hfil]
    rfl
  have hfresh1 : ∀ r ∈ db.rows, r.reg_no ≠ pfxOf year ++ code3 1 := by
    intro r hr hc
    have hm := hempty r hr
    rw [hc, likeMatch_self_append] at hm
    exact absurd hm (by simp)
  have h1 := registerF_created hb1 hgen1 hfresh1
  obtain ⟨r2, db2, h2, hr2⟩ := second_registration
    (⟨db.nextId, pfxOf year ++ code3 1, jsTrim (b1.name.getD []), jsTrim (b1.email.getD []),
      jsTrim (b1.department.getD []), jsTrim (b1.address.getD []),
      jsTrim (b1.division.getD [])⟩) (db.nextId + 1) hempty rfl hb2
  refine ⟨_, _, r2, db2, h1, ?_, h2, ?_⟩
  · show pfxOf year ++ code3 1 = pfxOf year ++ ofStr "001"
    rw [show code3 1 = ofStr "001" from by decide]
  · rw [hr2, show code3 2 = ofStr "002" from by decide]

/-- Witness for C3 from the empty store at year 2025. -/
theorem c3_first_registrations_witness :
    ∃ r1 db1 r2 db2,
      registerF 2025 DB.empty okBody noFaults = (.created r1, db1) ∧
      r1.reg_no = pfxOf 2025 ++ ofStr "001" ∧
      registerF 2025 db1 okBody noFaults = (.created r2, db2) ∧
      r2.reg_no = pfxOf 2025 ++ ofStr "002" :=
  c3_first_registrations 2025 DB.empty okBody okBody
    (fun r hr => absurd hr (by simp [DB.empty])) (by decide) (by decide)

/-- Claim C4: sequence values are not bounded by the allocator: above 999 the zero-pad
step leaves the four-or-more decimal digits unchanged (no error) and the allocator still
returns a prefix-plus-suffix string; for sequence values up to 999 the suffix is exactly
three zero-padded digits carrying the sequence value. -/
theorem c4_sequence_not_bounded (year : Nat) (db : DB) :
    (∀ n : Nat, 1000 ≤ n →
      padStart 3 '0' (natDigits n) = natDigits n ∧ 4 ≤ (natDigits n).length ∧
      ∀ c ∈ natDigits n, isDigitChar c = true) ∧
    (∀ n : Nat, 1 ≤ n → n ≤ 999 →
      (padStart 3 '0' (natDigits n)).length = 3 ∧
      (∀ c ∈ padStart 3 '0' (natDigits n), isDigitChar c = true) ∧
      digitsToNat (padStart 3 '0' (natDigits n)) = n) ∧
    (∃ suf, generateRegistrationNumber year db = pfxOf year ++ suf ∧ suf ≠ []) := by
  refine ⟨?_, ?_, ?_⟩
  · intro n hn
    have h4 := natDigits_length_ge4 hn
    refine ⟨?_, h4, natDigits_all_digits n⟩
    rw [padStart, show 3 - (natDigits n).length = 0 from by omega]
    rfl
  · intro n h1 h9
    have hlt : n < 1000 := by omega
    refine ⟨code3_length hlt, ?_, digitsToNat_code3 hlt⟩
    intro c hc
    have hc2 : c ∈ code3 n := hc
    rw [code3_eq hlt] at hc2
    simp only [List.mem_cons, List.not_mem_nil, or_false] at hc2
    rcases hc2 with h | h | h <;> subst h <;> exact isDigitChar_digitChar (by omega)
  · refine ⟨padStart 3 '0' (jsIntToStr (nextSequenceOf (latestLike (pfxOf year) db))),
      rfl, ?_⟩
    intro hnil
    have hlen := congrArg List.length hnil
    rw [padStart, List.length_append, List.length_replicate] at hlen
    simp only [List.length_nil] at hlen
    omega

/-- Witness for C4 at sequence values 1000 and 7 and the empty store. -/
theorem c4_sequence_not_bounded_witness :
    (padStart 3 '0' (natDigits 1000) = natDigits 1000 ∧ 4 ≤ (natDigits 1000).length ∧
      ∀ c ∈ natDigits 1000, isDigitChar c = true) ∧
    ((padStart 3 '0' (natDigits 7)).length = 3 ∧
      (∀ c ∈ padStart 3 '0' (natDigits 7), isDigitChar c = true) ∧
      digitsToNat (padStart 3 '0' (natDigits 7)) = 7) ∧
    (∃ suf, generateRegistrationNumber 2025 DB.empty = pfxOf 2025 ++ suf ∧ suf ≠ []) := by
  obtain ⟨ha, hb, hc⟩ := c4_sequence_not_bounded 2025 DB.empty
  exact ⟨ha 1000 (by omega), hb 7 (by omega) (by omega), hc⟩

/-- Claim C5: a registration request with any non-empty set of missing (absent or, by JS
truthiness, empty) fields is answered 400 with the untouched store, and the error
message lists exactly the missing field names: a field name appears in the reported list
precisely when that field is missing. -/
theorem c5_validation (year : Nat) (db : DB) (b : RegBody) (f : Faults)
    (h : falsyStr b.name = true ∨ falsyStr b.email = true ∨ falsyStr b.department = true ∨
      falsyStr b.address = true ∨ falsyStr b.division = true) :
    registerF year db b f = (.badRequest (missingFields b), db) ∧
    statusCode (.badRequest (missingFields b)) = 400 ∧
    errorMessage (.badRequest (missingFields b)) =
      some (ofStr "Missing fields: " ++ joinSep (ofStr ", ") (missingFields b)) ∧
    (ofStr "name" ∈ missingFields b ↔ falsyStr b.name = true) ∧
    (ofStr "email" ∈ missingFields b ↔ falsyStr b.email = true) ∧
    (ofStr "department" ∈ missingFields b ↔ falsyStr b.department = true) ∧
    (ofStr "address" ∈ missingFields b ↔ falsyStr b.address = true) ∧
    (ofStr "division" ∈ missingFields b ↔ falsyStr b.division = true) := by
  obtain ⟨m1, m2, m3, m4, m5⟩ := mem_missingFields b
  refine ⟨?_, rfl, rfl, m1, m2, m3, m4, m5⟩
  simp only [registerF, if_neg (missingFields_ne_nil h)]

/-- Witness for C5: name and address absent, email empty. -/
theorem c5_validation_witness :
    registerF 2025 DB.empty mbBody noFaults
      = (.badRequest (missingFields mbBody), DB.empty) ∧
    statusCode (.badRequest (missingFields mbBody)) = 400 ∧
    errorMessage (.badRequest (missingFields mbBody)) =
      some (ofStr "Missing fields: " ++ joinSep (ofStr ", ") (missingFields mbBody)) ∧
    (ofStr "name" ∈ missingFields mbBody ↔ falsyStr mbBody.name = true) ∧
    (ofStr "email" ∈ missingFields mbBody ↔ falsyStr mbBody.email = true) ∧
    (ofStr "department" ∈ missingFields mbBody ↔ falsyStr mbBody.department = true) ∧
    (ofStr "address" ∈ missingFields mbBody ↔ falsyStr mbBody.address = true) ∧
    (ofStr "division" ∈ missingFields mbBody ↔ falsyStr mbBody.division = true) :=
  c5_validation 2025 DB.empty mbBody noFaults (Or.inl (by decide))

/-- Counterexample to C6 as stated: a submission whose name is a single space (whitespace
only, hence empty after trimming) is not rejected: it is stored, and the stored name is
the empty string. -/
theorem c6_trim_counterexample :
    (register 2025 DB.empty wsBody).1 =
      .created ⟨ofStr "COL2025001", ofStr " ", ofStr "a", ofStr "b", ofStr "c", ofStr "d"⟩ ∧
    (register 2025 DB.empty wsBody).2.rows =
      [⟨1, ofStr "COL2025001", [], ofStr "a", ofStr "b", ofStr "c", ofStr "d"⟩] :=
  ⟨by decide, by decide⟩

/-- Claim C6 (amended): every stored record comes from a submission whose five fields
were present and non-empty before trimming, and stores exactly the JS-trimmed field
values; non-emptiness after trimming is not enforced, so a whitespace-only field is
stored as the empty string rather than rejected. -/
theorem c6_stored_trimmed (year : Nat) (db : DB) (b : RegBody) (f : Faults)
    (resp : RespStudent) (db2 : DB)
    (h : registerF year db b f = (.created resp, db2)) :
    ∃ nm em dp ad dv,
      b.name = some nm ∧ b.email = some em ∧ b.department = some dp ∧
      b.address = some ad ∧ b.division = some dv ∧
      nm ≠ [] ∧ em ≠ [] ∧ dp ≠ [] ∧ ad ≠ [] ∧ dv ≠ [] ∧
      db2.rows = db.rows ++ [⟨db.nextId, generateRegistrationNumber year db,
        jsTrim nm, jsTrim em, jsTrim dp, jsTrim ad, jsTrim dv⟩] := by
  obtain ⟨hm, hresp, hrows⟩ := registerF_created_inv h
  obtain ⟨f1, f2, f3, f4, f5⟩ := missingFields_eq_nil hm
  obtain ⟨nm, hnm, hnm2⟩ := falsyStr_eq_false f1
  obtain ⟨em, hem, hem2⟩ := falsyStr_eq_false f2
  obtain ⟨dp, hdp, hdp2⟩ := falsyStr_eq_false f3
  obtain ⟨ad, had, had2⟩ := falsyStr_eq_false f4
  obtain ⟨dv, hdv, hdv2⟩ := falsyStr_eq_false f5
  refine ⟨nm, em, dp, ad, dv, hnm, hem, hdp, had, hdv,
    hnm2, hem2, hdp2, had2, hdv2, ?_⟩
  rw [hrows, hnm, hem, hdp, had, hdv]
  rfl

/-- Witness for the amended C6 at a concrete successful registration. -/
theorem c6_stored_trimmed_witness :
    ∃ nm em dp ad dv,
      okBody.name = some nm ∧ okBody.email = some em ∧ okBody.department = some dp ∧
      okBody.address = some ad ∧ okBody.division = some dv ∧
      nm ≠ [] ∧ em ≠ [] ∧ dp ≠ [] ∧ ad ≠ [] ∧ dv ≠ [] ∧
      (⟨[⟨1, ofStr "COL2025001", ofStr "Ada", ofStr "ada@b.edu", ofStr "CS",
          ofStr "12 Main", ofStr "A"⟩], 2⟩ : DB).rows =
        DB.empty.rows ++ [⟨DB.empty.nextId, generateRegistrationNumber 2025 DB.empty,
          jsTrim nm, jsTrim em, jsTrim dp, jsTrim ad, jsTrim dv⟩] :=
  c6_stored_trimmed 2025 DB.empty okBody noFaults
    ⟨ofStr "COL2025001", ofStr "Ada", ofStr "ada@b.edu", ofStr "CS", ofStr "12 Main",
      ofStr "A"⟩
    ⟨[⟨1, ofStr "COL2025001", ofStr "Ada", ofStr "ada@b.edu", ofStr "CS",
      ofStr "12 Main", ofStr "A"⟩], 2⟩ (by decide)

/-- Claim C7: with no department filter the listing returns all rows ordered by
descending id (most recently created first, as ids increase with insertion); with a
non-empty department filter it returns exactly the rows of that department, in the same
order, excluding every other department. -/
theorem c7_listing (db : DB) (d : JStr) (hd : d ≠ [])
    (hinc : db.rows.Pairwise (fun a b => a.id < b.id)) :
    listStudents db none = db.rows.reverse ∧
    listStudents db (some d) = (db.rows.filter (fun r => r.department == d)).reverse ∧
    (∀ r ∈ listStudents db (some d), r.department = d) := by
  have hne : d.isEmpty = false := by
    cases d with
    | nil => exact absurd rfl hd
    | cons a as => rfl
  have h2 : listStudents db (some d)
      = (db.rows.filter (fun r => r.department == d)).reverse := by
    simp only [listStudents, hne, Bool.false_eq_true, if_false]
    exact sortByIdDesc_of_strictInc (List.Pairwise.filter _ hinc)
  refine ⟨sortByIdDesc_of_strictInc hinc, h2, ?_⟩
  intro r hr
  rw [h2, List.mem_reverse] at hr
  exact beq_iff_eq.mp (List.mem_filter.mp hr).2

/-- Witness for C7 at a three-row store with two departments. -/
theorem c7_listing_witness :
    listStudents wdb none = wdb.rows.reverse ∧
    listStudents wdb (some (ofStr "CS"))
      = (wdb.rows.filter (fun r => r.department == ofStr "CS")).reverse ∧
    (∀ r ∈ listStudents wdb (some (ofStr "CS")), r.department = ofStr "CS") :=
  c7_listing wdb (ofStr "CS") (by decide) (by decide)

/-- Claim C8: when validation passes but a store read or write rejects, the handler
catches the failure and answers the generic 500 body with the store untouched; the
response is the fixed string Internal Server Error, independent of the failure details
carried by the fault. -/
theorem c8_store_failure (year : Nat) (db : DB) (b : RegBody) (f : Faults)
    (hv : missingFields b = [])
    (hf : f.getFault.isSome = true ∨ f.insFault.isSome = true) :
    registerF year db b f = (.serverError, db) ∧
    statusCode .serverError = 500 ∧
    errorMessage .serverError = some (ofStr "Internal Server Error") := by
  refine ⟨?_, rfl, rfl⟩
  simp only [registerF, if_pos hv]
  by_cases hg : f.getFault.isSome = true
  · rw [if_pos hg]
  · rw [if_neg hg]
    have hi : f.insFault.isSome = true := by
      rcases hf with h | h
      · exact absurd h hg
      · exact h
    rw [if_pos hi]

/-- Witness for C8 with a failing read carrying details that do not reach the caller. -/
theorem c8_store_failure_witness :
    registerF 2025 DB.empty okBody ⟨some (ofStr "SQLITE_IOERR"), none⟩
      = (.serverError, DB.empty) ∧
    statusCode .serverError = 500 ∧
    errorMessage .serverError = some (ofStr "Internal Server Error") :=
  c8_store_failure 2025 DB.empty okBody ⟨some (ofStr "SQLITE_IOERR"), none⟩
    (by decide) (Or.inl (by decide))

/-- Claim C9: a listing request whose department parameter is present but empty is
treated as if the parameter were absent: all rows are returned unfiltered. -/
theorem c9_empty_department (db : DB) :
    listStudents db (some []) = listStudents db none ∧
    listStudents db none = sortByIdDesc db.rows :=
  ⟨rfl, rfl⟩

/-- Claim C10: registration preserves pairwise distinctness of stored reg_no values (the
UNIQUE constraint), and when the allocated number is already present the insert fails:
the request answers a server error and the table is unchanged. -/
theorem c10_unique_reg_no (year : Nat) (db : DB) (b : RegBody) (f : Faults)
    (hu : db.rows.Pairwise (fun a b => a.reg_no ≠ b.reg_no)) :
    ((registerF year db b f).2.rows.Pairwise (fun a b => a.reg_no ≠ b.reg_no)) ∧
    (missingFields b = [] →
      (db.rows.any fun r => r.reg_no == generateRegistrationNumber year db) = true →
      registerF year db b noFaults = (.serverError, db)) := by
  constructor
  · rcases registerF_rows_cases year db b f with h | ⟨hany, h⟩
    · rw [h]
      exact hu
    · rw [h]
      refine List.pairwise_append.mpr ⟨hu, List.pairwise_singleton _ _, ?_⟩
      intro a ha b' hb'
      rw [List.mem_singleton] at hb'
      subst hb'
      intro hcontra
      exact (List.any_eq_false.mp hany a ha) (beq_iff_eq.mpr hcontra)
  · intro hv hdup
    apply registerF_dup hv
    rw [List.any_eq_true] at hdup
    obtain ⟨r, hr, he⟩ := hdup
    exact ⟨r, hr, beq_iff_eq.mp he⟩

/-- Witness for C10 at the overflow store, where the allocator re-issues COL20251000. -/
theorem c10_unique_reg_no_witness :
    ((registerF 2025 odb okBody noFaults).2.rows.Pairwise
      (fun a b => a.reg_no ≠ b.reg_no)) ∧
    registerF 2025 odb okBody noFaults = (.serverError, odb) := by
  have h := c10_unique_reg_no 2025 odb okBody noFaults (by decide)
  exact ⟨h.1, h.2 (by decide) (by decide)⟩

end CollegeDirectory
